import Mathlib

/-
Verification of the bsky-utils structural query evaluator and paginated
result iterator (src/bsky_utils.py).

The JSON-like trees the Python code manipulates are modelled by the closed
tagged union `Value`; path segments by `PathKey`.  All functions are
translated directly from the source: `matches_criteria`, `traverse`
(the work-list evaluator), `generic_page_loop` (lazy stream) and
`generic_page_loop_return` (eager collect).  Python's unbounded `while`
loop over the work list is driven by an explicit fuel parameter; a `none`
result means the fuel ran out (or the Python original would have crashed
on a malformed nested fallback), while `some r` is the value the Python
function returns.
-/

namespace Bsky

/-- Value: a parsed JSON-like tree — dictionaries (string keys, insertion
order preserved), lists, scalars (string, integer, boolean) and null
(Python `None`). -/
inductive Value where
  | null : Value
  | bool (b : Bool) : Value
  | int (n : Int) : Value
  | str (s : String) : Value
  | list (xs : List Value) : Value
  | dict (kvs : List (String × Value)) : Value

mutual

/-- Structural equality on embedded values, modelling Python `==` on the
closed Value union (scalars by value, lists elementwise, dicts as
key-value pair lists). -/
def valueBeq : Value → Value → Bool
  | Value.null, Value.null => true
  | Value.bool a, Value.bool b => a == b
  | Value.int a, Value.int b => a == b
  | Value.str a, Value.str b => a == b
  | Value.list xs, Value.list ys => valueListBeq xs ys
  | Value.dict xs, Value.dict ys => valuePairsBeq xs ys
  | _, _ => false

def valueListBeq : List Value → List Value → Bool
  | [], [] => true
  | a :: as, b :: bs => valueBeq a b && valueListBeq as bs
  | _, _ => false

def valuePairsBeq : List (String × Value) → List (String × Value) → Bool
  | [], [] => true
  | (k, a) :: as, (l, b) :: bs => k == l && valueBeq a b && valuePairsBeq as bs
  | _, _ => false

end

mutual

/-- matches_criteria from src/bsky_utils.py: if item and criteria are not
both dicts, compare them for equality; otherwise every key of the criteria
must exist in the item and its expected value must match (recursively for
dict values, by membership for list values, by equality otherwise). -/
def matches_criteria : Value → Value → Bool
  | Value.dict ivs, Value.dict cs => mcPairs ivs cs
  | item, criteria => valueBeq item criteria

/-- Loop body of matches_criteria over the criteria's key-value pairs. -/
def mcPairs : List (String × Value) → List (String × Value) → Bool
  | _, [] => true
  | ivs, (k, v) :: cs =>
      (match ivs.lookup k with
       | none => false
       | some iv =>
         match v with
         | Value.dict _ => matches_criteria iv v
         | Value.list allow => allow.any (fun a => valueBeq iv a)
         | _ => valueBeq iv v) && mcPairs ivs cs

end

/-- PathKey: one element of a traverse path, mirroring the shapes the
Python code dispatches on: a string key, an integer index, a dict of
filter criteria, a list of fallback alternatives, and a tuple holding a
branching sub-path. -/
inductive PathKey where
  | str (s : String) : PathKey
  | int (i : Int) : PathKey
  | crit (c : List (String × Value)) : PathKey
  | alts (ks : List PathKey) : PathKey
  | branch (bp : List PathKey) : PathKey

/-- Path: an ordered list of segments, one of the `paths` arguments of
traverse. -/
abbrev Path := List PathKey

/-- Work-list frame of traverse: the carried value, the index into the
path, and the optional sub-index into a fallback list. -/
abbrev Frame := Value × Nat × Option Nat

/-- Python list indexing current[key] with negative wraparound, used by
traverse after its own bounds check. -/
def pyGet (xs : List Value) (i : Int) : Value :=
  (xs.get? (if i < 0 then ((xs.length : Int) + i).toNat else i.toNat)).getD Value.null

mutual

/-- traverse from src/bsky_utils.py, with an explicit fuel argument
driving the unbounded while loop: `some r` is the Python return value, and
`none` means the fuel ran out or the Python original crashed on a
malformed nested fallback index.  A `None` obj short-circuits to the
default; otherwise each path in turn is searched by the work-list loop
`goStack`, with the `results` accumulator threaded through `goPaths`. -/
def traverse : Nat → Value → List Path → Value → Bool → Option Value
  | 0, _, _, _, _ => none
  | Nat.succ f, obj, paths, dflt, getAll =>
    match obj with
    | Value.null => some dflt
    | _ => goPaths f obj paths dflt getAll []

/-- The `for path in paths` loop of traverse: run the work-list on one
path, then either return early (non-get_all match, signalled by
`Sum.inr`), or carry the accumulated results to the next path.  The final
`return results if results else default` is the empty-paths case. -/
def goPaths : Nat → Value → List Path → Value → Bool → List Value → Option Value
  | 0, _, _, _, _, _ => none
  | Nat.succ _, _, [], dflt, _, acc => some (if acc.isEmpty then dflt else Value.list acc)
  | Nat.succ f, obj, p :: ps, dflt, getAll, acc =>
    match goStack f p getAll [(obj, 0, none)] acc with
    | none => none
    | some (Sum.inr v) => some v
    | some (Sum.inl acc') =>
      if !getAll && !acc'.isEmpty then some (acc'.headD dflt)
      else goPaths f obj ps dflt getAll acc'

/-- The `while stack` loop of traverse for a single path.  Pops a frame
per unit of fuel; `Sum.inr v` is the early `return current` of
non-get_all mode, `Sum.inl acc` the drained stack with the updated
results accumulator. -/
def goStack : Nat → Path → Bool → List Frame → List Value → Option (List Value ⊕ Value)
  | 0, _, _, _, _ => none
  | Nat.succ _, _, _, [], acc => some (Sum.inl acc)
  | Nat.succ f, p, getAll, (cur, idx, sub) :: rest, acc =>
    match p[idx]? with
    | none =>
      -- index past the end of the path: record the carried value
      match cur with
      | Value.null => goStack f p getAll rest acc
      | _ =>
        if getAll then goStack f p getAll rest (acc ++ [cur])
        else some (Sum.inr cur)
    | some k0 =>
      match
        (match sub with
         | none => some k0
         | some j =>
           -- key = key[subindex]; only a fallback list is subscriptable here,
           -- an out-of-range or non-list subscript crashes the Python original
           match k0 with
           | PathKey.alts ks => ks[j]?
           | _ => none) with
      | none => none
      | some key =>
        match key with
        | PathKey.branch bp =>
          -- branching path tuples recurse into traverse
          match traverse f cur [bp] Value.null false with
          | none => none
          | some v => goStack f p getAll ((v, idx + 1, none) :: rest) acc
        | PathKey.alts ks =>
          -- push one sub-indexed frame per fallback alternative, in order
          goStack f p getAll
            (((List.range ks.length).map (fun j => (cur, idx, some j))) ++ rest) acc
        | _ =>
          match cur, key with
          | Value.list xs, PathKey.int i =>
            -- explicit index into a list, bounds-checked with negatives allowed
            if -(xs.length : Int) ≤ i ∧ i < (xs.length : Int) then
              goStack f p getAll ((pyGet xs i, idx + 1, none) :: rest) acc
            else goStack f p getAll rest acc
          | Value.list xs, PathKey.crit c =>
            -- keep the list items matching the criteria dict, in order
            goStack f p getAll
              (((xs.filter (fun it => matches_criteria it (Value.dict c))).map
                  (fun it => (it, idx + 1, (none : Option Nat)))) ++ rest) acc
          | Value.list xs, PathKey.str s =>
            -- apply a plain key to every dict item of the list, in order
            goStack f p getAll
              ((xs.filterMap (fun it =>
                  match it with
                  | Value.dict kvs => (kvs.lookup s).map (fun v => (v, idx + 1, (none : Option Nat)))
                  | _ => none)) ++ rest) acc
          | _, PathKey.crit c =>
            -- criteria dict against a non-list value: pass or discard
            if matches_criteria cur (Value.dict c) then
              goStack f p getAll ((cur, idx + 1, none) :: rest) acc
            else goStack f p getAll rest acc
          | Value.dict kvs, PathKey.str s =>
            match kvs.lookup s with
            | some v => goStack f p getAll ((v, idx + 1, none) :: rest) acc
            | none => goStack f p getAll rest acc
          | _, _ => goStack f p getAll rest acc

end

/-- Request parameters: a Python dict of query parameters, modelled as an
ordered association list. -/
abbrev Params := List (String × Value)

/-- Errors surfacing from the page loops: a failure propagated unmodified
out of the caller-supplied fetch, a Python TypeError from iterating or
extending with a non-iterable, and a Python AttributeError from calling
.extend on a non-list. -/
inductive PgErr where
  | fetchFail (e : String) : PgErr
  | typeError : PgErr
  | attrError : PgErr

/-- Python truthiness of an embedded value, as tested by the
`while cursor := traverse(...)` loop condition. -/
def truthy : Value → Bool
  | Value.null => false
  | Value.bool b => b
  | Value.int n => !(n == 0)
  | Value.str s => !(s == "")
  | Value.list xs => !xs.isEmpty
  | Value.dict kvs => !kvs.isEmpty

/-- Python dict merge expression with the cursor forwarded verbatim: keys
keep their order, an existing cursor entry is overwritten in place,
otherwise the cursor is appended. -/
def setCursor (params : Params) (c : Value) : Params :=
  if params.any (fun kv => kv.1 == "cursor")
  then params.map (fun kv => if kv.1 == "cursor" then ("cursor", c) else kv)
  else params ++ [("cursor", c)]

/-- Python iteration over a value, as performed by `yield from` and by
`list.extend`: lists yield their elements, strings their characters,
dicts their keys; anything else raises TypeError (modelled as `none`). -/
def pyIter : Value → Option (List Value)
  | Value.list xs => some xs
  | Value.str s => some (s.toList.map (fun ch => Value.str (String.mk [ch])))
  | Value.dict kvs => some (kvs.map (fun kv => Value.str kv.1))
  | _ => none

/-- Loop body of generic_page_loop_return: check the cursor of the last
page for truthiness, and while truthy fetch the next page (with the token
merged into the original params) and extend the buffered output.  The
returned pair carries the trace of request parameter dicts, one per fetch
performed, together with the final outcome.  `tfuel` is the traverse
fuel, the outer `Nat` the page fuel. -/
def collectGo (fetch : Params → Except String Value) (pOut pCur : Path) (tfuel : Nat) :
    Nat → Params → Value → Value → List Params → Option (List Params × Except PgErr Value)
  | 0, _, res, output, reqs =>
    match traverse tfuel res [pCur] Value.null false with
    | none => none
    | some cursor => if truthy cursor then none else some (reqs, Except.ok output)
  | Nat.succ pf, params, res, output, reqs =>
    match traverse tfuel res [pCur] Value.null false with
    | none => none
    | some cursor =>
      if truthy cursor then
        let params' := setCursor params cursor
        match fetch params' with
        | Except.error e => some (reqs ++ [params'], Except.error (PgErr.fetchFail e))
        | Except.ok res' =>
          match output with
          | Value.list os =>
            match traverse tfuel res' [pOut] Value.null false with
            | none => none
            | some newOut =>
              match pyIter newOut with
              | some ys =>
                collectGo fetch pOut pCur tfuel pf params res' (Value.list (os ++ ys))
                  (reqs ++ [params'])
              | none => some (reqs ++ [params'], Except.error PgErr.typeError)
          | _ => some (reqs ++ [params'], Except.error PgErr.attrError)
      else some (reqs, Except.ok output)

/-- generic_page_loop_return from src/bsky_utils.py, the eager collect
entry point, with the api/headers-closed safe_request abstracted into the
caller-supplied `fetch`.  Returns the fetch trace and either the buffered
output value or the first error; `none` means the fuel ran out. -/
def generic_page_loop_return (fetch : Params → Except String Value) (pOut pCur : Path)
    (tfuel pfuel : Nat) (params : Params) : Option (List Params × Except PgErr Value) :=
  match fetch params with
  | Except.error e => some ([params], Except.error (PgErr.fetchFail e))
  | Except.ok res =>
    match traverse tfuel res [pOut] Value.null false with
    | none => none
    | some output => collectGo fetch pOut pCur tfuel pfuel params res output [params]

/-- Loop body of generic_page_loop: check the cursor of the last page,
and while truthy fetch the next page and yield its items.  Carries the
fetch trace, the items yielded so far, and ends with `Except.ok` on clean
termination or the first error raised inside the generator. -/
def streamGo (fetch : Params → Except String Value) (pOut pCur : Path) (tfuel : Nat) :
    Nat → Params → Value → List Value → List Params →
    Option (List Params × List Value × Except PgErr Unit)
  | 0, _, res, ys, reqs =>
    match traverse tfuel res [pCur] Value.null false with
    | none => none
    | some cursor => if truthy cursor then none else some (reqs, ys, Except.ok ())
  | Nat.succ pf, params, res, ys, reqs =>
    match traverse tfuel res [pCur] Value.null false with
    | none => none
    | some cursor =>
      if truthy cursor then
        let params' := setCursor params cursor
        match fetch params' with
        | Except.error e => some (reqs ++ [params'], ys, Except.error (PgErr.fetchFail e))
        | Except.ok res' =>
          match traverse tfuel res' [pOut] Value.null false with
          | none => none
          | some out =>
            match pyIter out with
            | some zs => streamGo fetch pOut pCur tfuel pf params res' (ys ++ zs) (reqs ++ [params'])
            | none => some (reqs ++ [params'], ys, Except.error PgErr.typeError)
      else some (reqs, ys, Except.ok ())

/-- generic_page_loop from src/bsky_utils.py, the lazy stream entry
point, modelled by its full consumption trace: the fetches performed, the
items the generator yields in order, and whether it finishes cleanly or
raises. -/
def generic_page_loop (fetch : Params → Except String Value) (pOut pCur : Path)
    (tfuel pfuel : Nat) (params : Params) :
    Option (List Params × List Value × Except PgErr Unit) :=
  match fetch params with
  | Except.error e => some ([params], [], Except.error (PgErr.fetchFail e))
  | Except.ok res =>
    match traverse tfuel res [pOut] Value.null false with
    | none => none
    | some output =>
      match pyIter output with
      | none => some ([params], [], Except.error PgErr.typeError)
      | some ys => streamGo fetch pOut pCur tfuel pfuel params res ys [params]

mutual

/-- Modelled from the spec (section 4.2 Criteria Matcher): if the
criteria is not a Mapping, require strict equality; else the element must
be a Mapping and every key of the criteria must exist in the element with
a matching expected value — recursively for Mapping expectations, by
membership for Sequence expectations, by strict equality otherwise. -/
def matchesSpec : Value → Value → Bool
  | e, Value.dict cs =>
    (match e with
     | Value.dict evs => msPairs evs cs
     | _ => false)
  | e, c => valueBeq e c

/-- Per-pair check of the spec's Criteria Matcher. -/
def msPairs : List (String × Value) → List (String × Value) → Bool
  | _, [] => true
  | evs, (k, exp) :: cs =>
      (match evs.lookup k with
       | none => false
       | some ev =>
         match exp with
         | Value.dict _ => matchesSpec ev exp
         | Value.list allow => allow.any (fun a => valueBeq ev a)
         | _ => valueBeq ev exp) && msPairs evs cs

end

/-- Bounds-checked Python indexing with negative wraparound: the value
`xs[i]` when -len(xs) <= i < len(xs), else nothing. -/
def pyIndex (xs : List Value) (i : Int) : Option Value :=
  if -(xs.length : Int) ≤ i ∧ i < (xs.length : Int) then some (pyGet xs i) else none

/-- Modelled from the spec (section 8, first testable property): plain
chained field/index access — a Key selects a Mapping field, an Index a
bounds-checked Sequence element, anything else is a miss. -/
def chainedAccess : Value → Path → Option Value
  | v, [] => some v
  | Value.dict kvs, PathKey.str s :: rest =>
    (match kvs.lookup s with
     | some v => chainedAccess v rest
     | none => none)
  | Value.list xs, PathKey.int i :: rest =>
    (match pyIndex xs i with
     | some v => chainedAccess v rest
     | none => none)
  | _, _ => none

/-- A path made only of Key and Index segments. -/
def keyIndexOnly (p : Path) : Bool :=
  p.all fun k =>
    match k with
    | PathKey.str _ => true
    | PathKey.int _ => true
    | _ => false

/-- Along the chained access of `p` through `v`, a Key segment is never
applied to a Sequence (where traverse would instead fan out over the
sequence's elements). -/
def noSeqKey : Value → Path → Bool
  | _, [] => true
  | Value.list _, PathKey.str _ :: _ => false
  | Value.dict kvs, PathKey.str s :: rest =>
    (match kvs.lookup s with
     | some v => noSeqKey v rest
     | none => true)
  | Value.list xs, PathKey.int i :: rest =>
    (match pyIndex xs i with
     | some v => noSeqKey v rest
     | none => true)
  | _, _ :: _ => true

/-- The matches traverse records while searching a single path in
get_all mode: the drained work-list accumulator, seeded exactly as the
per-path loop seeds it. -/
def pathMatches (fuel : Nat) (obj : Value) (p : Path) : Option (List Value) :=
  match goStack fuel p true [(obj, 0, none)] [] with
  | some (Sum.inl ms) => some ms
  | _ => none

/-- The concatenation, in PathSet order, of every path's recorded
matches, with the fuel threaded the way goPaths threads it. -/
def allPathMatches : Nat → Value → List Path → Option (List Value)
  | 0, _, _ => none
  | Nat.succ _, _, [] => some []
  | Nat.succ f, obj, p :: ps =>
    match pathMatches f obj p, allPathMatches f obj ps with
    | some ms, some rest => some (ms ++ rest)
    | _, _ => none

/-- The value of the first fallback alternative that is present in the
mapping with a non-null value; alternatives that are missing or bound to
null are skipped. -/
def firstFallbackHit (kvs : List (String × Value)) : List String → Option Value
  | [] => none
  | k :: ks =>
    match kvs.lookup k with
    | some Value.null => firstFallbackHit kvs ks
    | some v => some v
    | none => firstFallbackHit kvs ks

/-- C3: the code, not the spec, is at fault here.  traverse performs no
eager validation and raises no MalformedPath failure: on the mapping
binding y to 7, the PathSet whose single path is a Fallback containing a
nested Fallback evaluates to completion and silently returns the default
(the inner alternative's position indexes the outer list, so the nested
alternative y is never tried), while the same alternatives written as one
flat Fallback find 7. -/
theorem claim_C3 :
    traverse 20 (Value.dict [("y", Value.int 7)])
      [[PathKey.alts [PathKey.str "x", PathKey.alts [PathKey.str "y"]]]]
      (Value.str "DEFAULT") false = some (Value.str "DEFAULT")
    ∧ traverse 20 (Value.dict [("y", Value.int 7)])
      [[PathKey.alts [PathKey.str "x", PathKey.str "y"]]]
      (Value.str "DEFAULT") false = some (Value.int 7) :=
  ⟨rfl, rfl⟩

/-- C1 counterexample: with the tree binding a to 1 and b to 2 and the
PathSet of the two paths a then b, get_all evaluation returns the list
with both 1 and 2, although the first path that produced a match (a)
recorded only 1 — matches of the later path b are merged in, contrary to
the claim. -/
theorem claim_C1_counterexample :
    traverse 10 (Value.dict [("a", Value.int 1), ("b", Value.int 2)])
      [[PathKey.str "a"], [PathKey.str "b"]] Value.null true
      = some (Value.list [Value.int 1, Value.int 2])
    ∧ pathMatches 8 (Value.dict [("a", Value.int 1), ("b", Value.int 2)])
      [PathKey.str "a"] = some [Value.int 1]
    ∧ Value.list [Value.int 1, Value.int 2] ≠ Value.list [Value.int 1] :=
  ⟨rfl, rfl, by simp⟩

/-- C2 counterexample: on the tree that is a one-element Sequence holding
the mapping with a bound to 1, with the Key-only path a, traverse fans
out over the sequence elements and returns 1, while plain chained access
misses (a Sequence has no field a) so the claim demands the default. -/
theorem claim_C2_counterexample :
    traverse 20 (Value.list [Value.dict [("a", Value.int 1)]])
      [[PathKey.str "a"]] (Value.str "DEFAULT") false = some (Value.int 1)
    ∧ chainedAccess (Value.list [Value.dict [("a", Value.int 1)]]) [PathKey.str "a"] = none
    ∧ keyIndexOnly [PathKey.str "a"] = true
    ∧ Value.int 1 ≠ Value.str "DEFAULT" :=
  ⟨rfl, rfl, rfl, by simp⟩

/-- C6 counterexample: on the mapping binding a to null and b to 5, the
Fallback over a then b returns 5, not the value of the first listed
present key a (null): a present alternative bound to null is skipped. -/
theorem claim_C6_counterexample :
    traverse 20 (Value.dict [("a", Value.null), ("b", Value.int 5)])
      [[PathKey.alts [PathKey.str "a", PathKey.str "b"]]] (Value.str "DEFAULT") false
      = some (Value.int 5)
    ∧ Value.int 5 ≠ Value.null :=
  ⟨rfl, by simp⟩

/-- C4 counterexample: a fetch whose page carries the empty-string cursor
token terminates pagination after exactly one fetch, although the cursor
path did yield a token — termination is decided by Python truthiness, not
by token absence alone. -/
theorem claim_C4_counterexample :
    traverse 10 (Value.dict [("items", Value.list [Value.int 1]), ("cursor", Value.str "")])
      [[PathKey.str "cursor"]] Value.null false = some (Value.str "")
    ∧ generic_page_loop_return
        (fun _ => Except.ok (Value.dict [("items", Value.list [Value.int 1]), ("cursor", Value.str "")]))
        [PathKey.str "items"] [PathKey.str "cursor"] 10 10 [("limit", Value.int 100)]
      = some ([[("limit", Value.int 100)]], Except.ok (Value.list [Value.int 1])) :=
  ⟨rfl, rfl⟩

/-- C10 counterexample: a fetch whose single page has neither an item
list nor a cursor makes the eager collect loop return the evaluator
default None without raising any error, so collect does not always raise
on an absent item list. -/
theorem claim_C10_counterexample :
    traverse 10 (Value.dict [("done", Value.bool true)])
      [[PathKey.str "items"]] Value.null false = some Value.null
    ∧ generic_page_loop_return
        (fun _ => Except.ok (Value.dict [("done", Value.bool true)]))
        [PathKey.str "items"] [PathKey.str "cursor"] 10 10 [("limit", Value.int 100)]
      = some ([[("limit", Value.int 100)]], Except.ok Value.null) :=
  ⟨rfl, rfl⟩

/-- C4 (amended): for a fetch returning a page with truthy cursor token
a, then one with token b, then a page whose cursor path yields nothing,
the eager collect loop performs exactly 3 fetches — the 3rd request's
parameters carrying cursor b — and returns the three pages' item lists
concatenated in page order; pagination terminates exactly when the cursor
path yields no token or a falsy one. -/
theorem claim_C4_thm (fetch : Params → Except String Value) (pOut pCur : Path)
    (params : Params) (pg1 pg2 pg3 : Value) (xs1 xs2 xs3 : List Value) (tfuel pf : Nat)
    (h1 : fetch params = Except.ok pg1)
    (ho1 : traverse tfuel pg1 [pOut] Value.null false = some (Value.list xs1))
    (hc1 : traverse tfuel pg1 [pCur] Value.null false = some (Value.str "a"))
    (h2 : fetch (setCursor params (Value.str "a")) = Except.ok pg2)
    (ho2 : traverse tfuel pg2 [pOut] Value.null false = some (Value.list xs2))
    (hc2 : traverse tfuel pg2 [pCur] Value.null false = some (Value.str "b"))
    (h3 : fetch (setCursor params (Value.str "b")) = Except.ok pg3)
    (ho3 : traverse tfuel pg3 [pOut] Value.null false = some (Value.list xs3))
    (hc3 : traverse tfuel pg3 [pCur] Value.null false = some Value.null) :
    generic_page_loop_return fetch pOut pCur tfuel (pf + 2) params
    = some ([params, setCursor params (Value.str "a"), setCursor params (Value.str "b")],
        Except.ok (Value.list (xs1 ++ xs2 ++ xs3))) := by
  simp only [generic_page_loop_return, h1, ho1, collectGo, hc1, h2, ho2, pyIter, hc2, h3,
    ho3, hc3, truthy]
  cases pf <;> simp only [collectGo, hc3, truthy] <;> simp [List.append_assoc]

/-- C5: when the second page fetch fails, the eager collect loop
propagates the failure unmodified with zero buffered items, while the
lazy stream yields exactly the first page's items before raising the
same failure; both perform the failing fetch exactly once and suppress
nothing. -/
theorem claim_C5_thm (fetch : Params → Except String Value) (pOut pCur : Path)
    (params : Params) (pg1 : Value) (xs1 : List Value) (c : Value) (e : String) (tfuel pf : Nat)
    (h1 : fetch params = Except.ok pg1)
    (ho1 : traverse tfuel pg1 [pOut] Value.null false = some (Value.list xs1))
    (hc1 : traverse tfuel pg1 [pCur] Value.null false = some c)
    (hct : truthy c = true)
    (h2 : fetch (setCursor params c) = Except.error e) :
    generic_page_loop_return fetch pOut pCur tfuel (pf + 1) params
    = some ([params, setCursor params c], Except.error (PgErr.fetchFail e))
    ∧ generic_page_loop fetch pOut pCur tfuel (pf + 1) params
    = some ([params, setCursor params c], xs1, Except.error (PgErr.fetchFail e)) := by
  constructor
  · simp only [generic_page_loop_return, h1, ho1, collectGo, hc1, hct, h2]
    simp
  · simp only [generic_page_loop, h1, ho1, pyIter, streamGo, hc1, hct, h2]
    simp

/-- C10 (amended): when the items path finds nothing in a page, the lazy
stream always raises a TypeError when it first iterates the absent item
list, before any cursor handling; the eager collect raises an
AttributeError when a truthy cursor makes it call extend on the absent
list (after performing the next fetch), but when the itemless first page
carries no truthy cursor, collect returns the evaluator default None
without raising. -/
theorem claim_C10_thm :
    (∀ (fetch : Params → Except String Value) (pOut pCur : Path) (params : Params)
       (page : Value) (tfuel pfuel : Nat),
       fetch params = Except.ok page →
       traverse tfuel page [pOut] Value.null false = some Value.null →
       generic_page_loop fetch pOut pCur tfuel pfuel params
       = some ([params], [], Except.error PgErr.typeError))
    ∧ (∀ (fetch : Params → Except String Value) (pOut pCur : Path) (params : Params)
       (page pg2 c : Value) (tfuel pf : Nat),
       fetch params = Except.ok page →
       traverse tfuel page [pOut] Value.null false = some Value.null →
       traverse tfuel page [pCur] Value.null false = some c →
       truthy c = true →
       fetch (setCursor params c) = Except.ok pg2 →
       generic_page_loop_return fetch pOut pCur tfuel (pf + 1) params
       = some ([params, setCursor params c], Except.error PgErr.attrError))
    ∧ (∀ (fetch : Params → Except String Value) (pOut pCur : Path) (params : Params)
       (page c : Value) (tfuel pfuel : Nat),
       fetch params = Except.ok page →
       traverse tfuel page [pOut] Value.null false = some Value.null →
       traverse tfuel page [pCur] Value.null false = some c →
       truthy c = false →
       generic_page_loop_return fetch pOut pCur tfuel pfuel params
       = some ([params], Except.ok Value.null)) := by
  refine ⟨?_, ?_, ?_⟩
  · intro fetch pOut pCur params page tfuel pfuel h1 ho1
    simp only [generic_page_loop, h1, ho1, pyIter]
  · intro fetch pOut pCur params page pg2 c tfuel pf h1 ho1 hc1 hct h2
    simp only [generic_page_loop_return, h1, ho1, collectGo, hc1, hct, h2]
    simp
  · intro fetch pOut pCur params page c tfuel pfuel h1 ho1 hc1 hcf
    cases pfuel <;>
      simp only [generic_page_loop_return, h1, ho1, collectGo, hc1, hcf, Bool.false_eq_true,
        if_false]

/-- C4 witness: a concrete mock fetch paging through items 1, 2, 3 with
cursor tokens a then b then none. -/
theorem claim_C4_witness :
    generic_page_loop_return
      (fun ps =>
        if valuePairsBeq ps [("limit", Value.int 100)] then
          Except.ok (Value.dict [("items", Value.list [Value.int 1]), ("cursor", Value.str "a")])
        else if valuePairsBeq ps [("limit", Value.int 100), ("cursor", Value.str "a")] then
          Except.ok (Value.dict [("items", Value.list [Value.int 2]), ("cursor", Value.str "b")])
        else if valuePairsBeq ps [("limit", Value.int 100), ("cursor", Value.str "b")] then
          Except.ok (Value.dict [("items", Value.list [Value.int 3])])
        else Except.error "unexpected request")
      [PathKey.str "items"] [PathKey.str "cursor"] 10 2 [("limit", Value.int 100)]
    = some ([[("limit", Value.int 100)],
             [("limit", Value.int 100), ("cursor", Value.str "a")],
             [("limit", Value.int 100), ("cursor", Value.str "b")]],
        Except.ok (Value.list [Value.int 1, Value.int 2, Value.int 3])) := by
  exact (claim_C4_thm _ _ _ _
    (Value.dict [("items", Value.list [Value.int 1]), ("cursor", Value.str "a")])
    (Value.dict [("items", Value.list [Value.int 2]), ("cursor", Value.str "b")])
    (Value.dict [("items", Value.list [Value.int 3])])
    [Value.int 1] [Value.int 2] [Value.int 3] 10 0
    (by rfl) (by rfl) (by rfl) (by rfl) (by rfl) (by rfl) (by rfl) (by rfl) (by rfl)).trans rfl

/-- C5 witness: a concrete mock fetch whose second request fails with the
error boom. -/
theorem claim_C5_witness :
    generic_page_loop_return
      (fun ps =>
        if valuePairsBeq ps [("limit", Value.int 100)] then
          Except.ok (Value.dict [("items", Value.list [Value.int 1]), ("cursor", Value.str "a")])
        else Except.error "boom")
      [PathKey.str "items"] [PathKey.str "cursor"] 10 1 [("limit", Value.int 100)]
    = some ([[("limit", Value.int 100)],
             [("limit", Value.int 100), ("cursor", Value.str "a")]],
        Except.error (PgErr.fetchFail "boom"))
    ∧ generic_page_loop
      (fun ps =>
        if valuePairsBeq ps [("limit", Value.int 100)] then
          Except.ok (Value.dict [("items", Value.list [Value.int 1]), ("cursor", Value.str "a")])
        else Except.error "boom")
      [PathKey.str "items"] [PathKey.str "cursor"] 10 1 [("limit", Value.int 100)]
    = some ([[("limit", Value.int 100)],
             [("limit", Value.int 100), ("cursor", Value.str "a")]],
        [Value.int 1], Except.error (PgErr.fetchFail "boom")) := by
  have H := claim_C5_thm
    (fun ps =>
      if valuePairsBeq ps [("limit", Value.int 100)] then
        Except.ok (Value.dict [("items", Value.list [Value.int 1]), ("cursor", Value.str "a")])
      else Except.error "boom")
    [PathKey.str "items"] [PathKey.str "cursor"] [("limit", Value.int 100)]
    (Value.dict [("items", Value.list [Value.int 1]), ("cursor", Value.str "a")])
    [Value.int 1] (Value.str "a") "boom" 10 0 (by rfl) (by rfl) (by rfl) (by rfl) (by rfl)
  exact ⟨H.1.trans rfl, H.2.trans rfl⟩

/-- C10 witness: concrete itemless pages — the stream raises a TypeError
at once, collect raises an AttributeError when a truthy cursor is
present, and collect returns None when no truthy cursor is present. -/
theorem claim_C10_witness :
    generic_page_loop (fun _ => Except.ok (Value.dict [("done", Value.bool true)]))
      [PathKey.str "items"] [PathKey.str "cursor"] 10 5 [("limit", Value.int 100)]
    = some ([[("limit", Value.int 100)]], [], Except.error PgErr.typeError)
    ∧ generic_page_loop_return (fun _ => Except.ok (Value.dict [("cursor", Value.str "c")]))
      [PathKey.str "items"] [PathKey.str "cursor"] 10 1 [("limit", Value.int 100)]
    = some ([[("limit", Value.int 100)],
             [("limit", Value.int 100), ("cursor", Value.str "c")]],
        Except.error PgErr.attrError)
    ∧ generic_page_loop_return (fun _ => Except.ok (Value.dict [("done", Value.bool true)]))
      [PathKey.str "items"] [PathKey.str "cursor"] 10 5 [("limit", Value.int 100)]
    = some ([[("limit", Value.int 100)]], Except.ok Value.null) := by
  refine ⟨claim_C10_thm.1 _ _ [PathKey.str "cursor"] _
    (Value.dict [("done", Value.bool true)]) 10 5 (by rfl) (by rfl), ?_, ?_⟩
  · exact (claim_C10_thm.2.1 _ _ _ _ (Value.dict [("cursor", Value.str "c")])
      (Value.dict [("cursor", Value.str "c")]) (Value.str "c") 10 0
      (by rfl) (by rfl) (by rfl) (by rfl) (by rfl)).trans rfl
  · exact claim_C10_thm.2.2 _ _ _ _ (Value.dict [("done", Value.bool true)])
      Value.null 10 5 (by rfl) (by rfl) (by rfl) (by rfl)

mutual

/-- The code's criteria matcher agrees with the spec's on every pair of
values. -/
theorem matches_criteria_eq_spec : ∀ (e c : Value), matches_criteria e c = matchesSpec e c
  | e, Value.dict cs => by
    cases e with
    | dict evs => exact mcPairs_eq_spec evs cs
    | null => rfl
    | bool b => rfl
    | int n => rfl
    | str s => rfl
    | list xs => rfl
  | e, Value.null => by cases e <;> rfl
  | e, Value.bool b => by cases e <;> rfl
  | e, Value.int n => by cases e <;> rfl
  | e, Value.str s => by cases e <;> rfl
  | e, Value.list xs => by cases e <;> rfl
termination_by _ c => sizeOf c

/-- The per-pair loops of the two matchers agree. -/
theorem mcPairs_eq_spec : ∀ (evs cs : List (String × Value)), mcPairs evs cs = msPairs evs cs
  | _, [] => rfl
  | evs, (k, v) :: cs => by
    simp only [mcPairs, msPairs, mcPairs_eq_spec evs cs]
    cases h : evs.lookup k with
    | none => rfl
    | some iv =>
      cases v with
      | dict cs2 => simp only [matches_criteria_eq_spec iv (Value.dict cs2)]
      | null => rfl
      | bool b => rfl
      | int n => rfl
      | str s => rfl
      | list xs => rfl
termination_by _ cs => sizeOf cs

end

/-- C7: for every element and criteria, matches_criteria returns true
exactly under the spec's subset-match conditions — when criteria is not a
Mapping, the element must equal it; otherwise the element must be a
Mapping and every key-expected pair of the criteria must be present and
match (recursively for Mapping expectations, by membership for Sequence
expectations, by equality otherwise), extra element keys never mattering. -/
theorem claim_C7 : ∀ (e c : Value), matches_criteria e c = matchesSpec e c :=
  fun e c => matches_criteria_eq_spec e c

/-- C8: an Index segment over a Sequence is bounds-checked with negative
wraparound: in range it selects the element (returned unless it is null,
which is discarded like a missing path), out of range the branch yields
no match and the default is returned, and evaluation always terminates
normally — never with an error. -/
theorem claim_C8 (xs : List Value) (i : Int) (d : Value) (fuel : Nat) (hf : 5 ≤ fuel) :
    traverse fuel (Value.list xs) [[PathKey.int i]] d false
    = some (match pyIndex xs i with
            | some v =>
              match v with
              | Value.null => d
              | _ => v
            | none => d) := by
  obtain ⟨f, rfl⟩ : ∃ k, fuel = k + 5 := ⟨fuel - 5, by omega⟩
  by_cases hb : -(xs.length : Int) ≤ i ∧ i < (xs.length : Int)
  · have hpi : pyIndex xs i = some (pyGet xs i) := by simp [pyIndex, hb]
    rw [hpi]
    cases hv : pyGet xs i <;>
      simp [traverse, goPaths, goStack, hb, hv]
  · have hpi : pyIndex xs i = none := by simp [pyIndex, hb]
    rw [hpi]
    simp [traverse, goPaths, goStack, hb]

/-- C8 witness: on the three-element sequence 1, 2, 3, index -1 selects 3
and index -4 is out of range and yields the default. -/
theorem claim_C8_witness :
    traverse 9 (Value.list [Value.int 1, Value.int 2, Value.int 3]) [[PathKey.int (-1)]]
      (Value.str "DEFAULT") false = some (Value.int 3)
    ∧ traverse 9 (Value.list [Value.int 1, Value.int 2, Value.int 3]) [[PathKey.int (-4)]]
      (Value.str "DEFAULT") false = some (Value.str "DEFAULT") := by
  constructor
  · exact (claim_C8 [Value.int 1, Value.int 2, Value.int 3] (-1) (Value.str "DEFAULT") 9
      (by omega)).trans rfl
  · exact (claim_C8 [Value.int 1, Value.int 2, Value.int 3] (-4) (Value.str "DEFAULT") 9
      (by omega)).trans rfl

/-- The work-list loop over the sub-indexed frames of a single Fallback
segment over a Mapping: alternatives are tried in listed order, and the
first one present with a non-null value is returned; present-but-null and
missing alternatives fall through alike. -/
theorem goStack_alts (kvs : List (String × Value)) (ks : List String) :
    ∀ (m j g : Nat), j + m = ks.length → 2 * m + 1 ≤ g →
    goStack g [PathKey.alts (ks.map PathKey.str)] false
      ((List.range' j m).map (fun j' => (Value.dict kvs, 0, some j'))) []
    = match firstFallbackHit kvs (ks.drop j) with
      | some v => some (Sum.inr v)
      | none => some (Sum.inl []) := by
  intro m
  induction m with
  | zero =>
    intro j g hjm hg
    obtain ⟨g', rfl⟩ : ∃ k, g = k + 1 := ⟨g - 1, by omega⟩
    rw [List.drop_eq_nil_of_le (by omega)]
    simp [goStack, firstFallbackHit]
  | succ m ih =>
    intro j g hjm hg
    obtain ⟨g₂, rfl⟩ : ∃ k, g = k + 2 := ⟨g - 2, by omega⟩
    have hj : j < ks.length := by omega
    rw [List.range'_succ, List.map_cons, List.drop_eq_getElem_cons hj]
    simp only [goStack, List.getElem?_cons_zero, List.getElem?_map,
      List.getElem?_eq_getElem hj, Option.map_some']
    cases hl : kvs.lookup ks[j] with
    | none =>
      simp only [hl, firstFallbackHit]
      exact ih (j + 1) (g₂ + 1) (by omega) (by omega)
    | some v =>
      simp only [hl, firstFallbackHit]
      cases v with
      | null =>
        simp only [goStack, List.getElem?_cons_succ, List.getElem?_nil]
        exact ih (j + 1) g₂ (by omega) (by omega)
      | bool b => simp [goStack]
      | int n => simp [goStack]
      | str s => simp [goStack]
      | list xs => simp [goStack]
      | dict kvs2 => simp [goStack]

/-- C6 (amended): evaluating a single Fallback segment over a Mapping in
non-get_all mode returns the value of the first listed alternative that
is present in the Mapping with a non-null value (a present alternative
bound to null falls through exactly like a missing one), and the default
when no alternative qualifies; the reverse-push of all alternatives
reproduces first-listed-first-tried order. -/
theorem claim_C6_thm (kvs : List (String × Value)) (ks : List String) (d : Value) (fuel : Nat)
    (hf : 2 * ks.length + 5 ≤ fuel) :
    traverse fuel (Value.dict kvs) [[PathKey.alts (ks.map PathKey.str)]] d false
    = some ((firstFallbackHit kvs ks).getD d) := by
  obtain ⟨f, rfl⟩ : ∃ k, fuel = k + 3 := ⟨fuel - 3, by omega⟩
  simp only [traverse, goPaths, goStack, List.getElem?_cons_zero, List.append_nil,
    List.length_map, List.range_eq_range']
  rw [goStack_alts kvs ks ks.length 0 f (by omega) (by omega)]
  cases hh : firstFallbackHit kvs ks with
  | some v => simp [hh]
  | none => simp [hh]

/-- C6 witness: the two spec examples — on the mapping with only b bound
to 5 the Fallback over a then b returns 5, and with a bound to 1 as well
it returns 1. -/
theorem claim_C6_witness :
    traverse 9 (Value.dict [("b", Value.int 5)])
      [[PathKey.alts [PathKey.str "a", PathKey.str "b"]]] Value.null false
      = some (Value.int 5)
    ∧ traverse 9 (Value.dict [("a", Value.int 1), ("b", Value.int 5)])
      [[PathKey.alts [PathKey.str "a", PathKey.str "b"]]] Value.null false
      = some (Value.int 1) := by
  constructor
  · exact (claim_C6_thm [("b", Value.int 5)] ["a", "b"] Value.null 9 (by decide)).trans rfl
  · exact (claim_C6_thm [("a", Value.int 1), ("b", Value.int 5)] ["a", "b"] Value.null 9
      (by decide)).trans rfl

/-- The work-list loop on a single frame chain: for a Key/Index-only
path that never applies a Key to a Sequence, the loop walks the path like
plain chained access, returning the reached value early (non-get_all)
when it is non-null, and draining to an empty match set when the access
misses or ends on null. -/
theorem goStack_chain (p : Path) (hk : keyIndexOnly p = true) :
    ∀ (m idx : Nat) (v : Value) (g : Nat), idx + m = p.length →
    noSeqKey v (p.drop idx) = true → m + 2 ≤ g →
    goStack g p false [(v, idx, none)] []
    = match chainedAccess v (p.drop idx) with
      | some r =>
        match r with
        | Value.null => some (Sum.inl [])
        | _ => some (Sum.inr r)
      | none => some (Sum.inl []) := by
  intro m
  induction m with
  | zero =>
    intro idx v g hm hn hg
    obtain ⟨g₂, rfl⟩ : ∃ k, g = k + 2 := ⟨g - 2, by omega⟩
    have hnone : p[idx]? = none := List.getElem?_eq_none (by omega)
    rw [List.drop_eq_nil_of_le (by omega)]
    simp only [goStack, hnone, chainedAccess]
    cases v <;> simp [goStack]
  | succ m ih =>
    intro idx v g hm hn hg
    obtain ⟨g₂, rfl⟩ : ∃ k, g = k + 2 := ⟨g - 2, by omega⟩
    have hidx : idx < p.length := by omega
    have hp : p[idx]? = some p[idx] := List.getElem?_eq_getElem hidx
    have hki := List.all_eq_true.mp hk _ (List.getElem_mem hidx)
    rw [List.drop_eq_getElem_cons hidx] at hn ⊢
    cases hkey : p[idx] with
    | str s =>
      rw [hkey] at hp hn
      cases v with
      | dict kvs =>
        simp only [goStack, hp]
        cases hl : kvs.lookup s with
        | some w =>
          simp only [hl]
          simp only [noSeqKey, hl] at hn
          simp only [chainedAccess, hl]
          exact ih (idx + 1) w (g₂ + 1) (by omega) hn (by omega)
        | none =>
          simp only [hl]
          simp [goStack, chainedAccess, hl]
      | null => simp [goStack, hp, chainedAccess]
      | bool b => simp [goStack, hp, chainedAccess]
      | int n => simp [goStack, hp, chainedAccess]
      | str s2 => simp [goStack, hp, chainedAccess]
      | list xs => simp [noSeqKey] at hn
    | int i =>
      rw [hkey] at hp hn
      cases v with
      | list xs =>
        simp only [goStack, hp]
        by_cases hb : -(xs.length : Int) ≤ i ∧ i < (xs.length : Int)
        · have hpi : pyIndex xs i = some (pyGet xs i) := by simp [pyIndex, hb]
          simp only [if_pos hb]
          simp only [noSeqKey, hpi] at hn
          simp only [chainedAccess, hpi]
          exact ih (idx + 1) (pyGet xs i) (g₂ + 1) (by omega) hn (by omega)
        · have hpi : pyIndex xs i = none := by simp [pyIndex, hb]
          simp only [if_neg hb]
          simp [goStack, chainedAccess, hpi]
      | null => simp [goStack, hp, chainedAccess]
      | bool b => simp [goStack, hp, chainedAccess]
      | int n => simp [goStack, hp, chainedAccess]
      | str s2 => simp [goStack, hp, chainedAccess]
      | dict kvs => simp [goStack, hp, chainedAccess]
    | crit c => rw [hkey] at hki; simp at hki
    | alts ks => rw [hkey] at hki; simp at hki
    | branch bp => rw [hkey] at hki; simp at hki

/-- C2 (amended): for a Key/Index-only path that never applies a Key
segment to a Sequence, evaluating the singleton PathSet equals plain
chained field/index access, except that a chained result of null is
returned as the configured default (like a missing path); the default is
returned whenever any key along the path is missing or any index is out
of range. -/
theorem claim_C2_thm (v : Value) (p : Path) (d : Value) (fuel : Nat)
    (hk : keyIndexOnly p = true) (hn : noSeqKey v p = true) (hf : p.length + 5 ≤ fuel) :
    traverse fuel v [p] d false
    = some (match chainedAccess v p with
            | some r =>
              match r with
              | Value.null => d
              | _ => r
            | none => d) := by
  obtain ⟨f, rfl⟩ : ∃ k, fuel = k + 3 := ⟨fuel - 3, by omega⟩
  cases v
  case null => cases p <;> simp [traverse, chainedAccess]
  all_goals {
    simp only [traverse, goPaths]
    rw [goStack_chain p hk p.length 0 _ (f + 1) (by omega) (by simpa using hn) (by omega)]
    simp only [List.drop_zero]
    cases hc : chainedAccess _ p with
    | none => simp [hc, goPaths]
    | some r => cases r <;> simp [hc, goPaths]
  }

/-- C2 witness: a two-level Key path reaching 3, and a missing-key path
yielding the default. -/
theorem claim_C2_witness :
    traverse 10 (Value.dict [("a", Value.dict [("b", Value.int 3)])])
      [[PathKey.str "a", PathKey.str "b"]] (Value.str "DEFAULT") false = some (Value.int 3)
    ∧ traverse 10 (Value.dict [("a", Value.int 1)])
      [[PathKey.str "x"]] (Value.str "DEFAULT") false = some (Value.str "DEFAULT") := by
  constructor
  · exact (claim_C2_thm (Value.dict [("a", Value.dict [("b", Value.int 3)])])
      [PathKey.str "a", PathKey.str "b"] (Value.str "DEFAULT") 10 rfl rfl (by decide)).trans rfl
  · exact (claim_C2_thm (Value.dict [("a", Value.int 1)])
      [PathKey.str "x"] (Value.str "DEFAULT") 10 rfl rfl (by decide)).trans rfl

/-- Results-accumulator framing: the work-list loop in get_all mode only
ever appends to the results list, so running it with a longer accumulator
prefixes the prefix onto whatever the run from the shorter accumulator
produces. -/
theorem goStack_acc (p : Path) : ∀ (g : Nat) (stack : List Frame) (acc₁ acc₂ : List Value),
    goStack g p true stack (acc₁ ++ acc₂)
    = Option.map (Sum.map (fun ms => acc₁ ++ ms) id) (goStack g p true stack acc₂) := by
  intro g
  induction g with
  | zero => intro stack acc₁ acc₂; rfl
  | succ f ih =>
    intro stack acc₁ acc₂
    cases stack with
    | nil => simp [goStack]
    | cons fr rest =>
      obtain ⟨cur, idx, sub⟩ := fr
      simp only [goStack]
      repeat' split
      all_goals simp [ih, List.append_assoc]

/-- The path loop in get_all mode: when every path's work-list drains
within fuel, the result is the accumulated matches of all paths in
PathSet order appended onto the incoming accumulator, or the default when
that is empty. -/
theorem goPaths_getAll (obj : Value) : ∀ (paths : List Path) (g : Nat) (d : Value) (acc ms : List Value),
    allPathMatches g obj paths = some ms →
    goPaths g obj paths d true acc = some (if (acc ++ ms).isEmpty then d else Value.list (acc ++ ms)) := by
  intro paths
  induction paths with
  | nil =>
    intro g d acc ms hm
    cases g with
    | zero => simp [allPathMatches] at hm
    | succ f =>
      simp only [allPathMatches, Option.some.injEq] at hm
      subst hm
      rw [List.append_nil]
      simp [goPaths]
  | cons p ps ih =>
    intro g d acc ms hm
    cases g with
    | zero => simp [allPathMatches] at hm
    | succ f =>
      simp only [allPathMatches] at hm
      cases h1 : pathMatches f obj p with
      | none => simp [h1] at hm
      | some ms₁ =>
        cases h2 : allPathMatches f obj ps with
        | none => simp [h1, h2] at hm
        | some ms₂ =>
          rw [h1, h2] at hm
          simp only [Option.some.injEq] at hm
          subst hm
          have hacc := goStack_acc p f [(obj, 0, none)] acc []
          rw [List.append_nil] at hacc
          cases hgs : goStack f p true [(obj, 0, none)] [] with
          | none => simp [pathMatches, hgs] at h1
          | some s =>
            cases s with
            | inr v => simp [pathMatches, hgs] at h1
            | inl a =>
              have ha : a = ms₁ := by simpa [pathMatches, hgs] using h1
              subst ha
              simp only [goPaths, hacc, hgs, Option.map_some']
              simp only [Sum.map_inl, id]
              rw [ih f d (acc ++ a) ms₂ h2, List.append_assoc]
              simp

/-- C1 (amended): in get_all mode, traverse returns the concatenation,
in PathSet order, of the matches recorded while searching every Path of
the PathSet — not only the first Path that produced a match — and the
default exactly when no Path matched anything. -/
theorem claim_C1_thm (fuel : Nat) (obj : Value) (paths : List Path) (d : Value) (ms : List Value)
    (hobj : obj ≠ Value.null)
    (hm : allPathMatches fuel obj paths = some ms) :
    traverse (fuel + 1) obj paths d true
    = some (if ms.isEmpty then d else Value.list ms) := by
  cases obj
  case null => exact absurd rfl hobj
  all_goals {
    have h := goPaths_getAll _ paths fuel d [] ms hm
    simp only [List.nil_append] at h
    simpa [traverse] using h
  }

/-- C1 witness: on the tree binding a to 1 and b to 2, the PathSet of
paths a then b yields both matches concatenated. -/
theorem claim_C1_witness :
    traverse 10 (Value.dict [("a", Value.int 1), ("b", Value.int 2)])
      [[PathKey.str "a"], [PathKey.str "b"]] (Value.str "DEFAULT") true
    = some (Value.list [Value.int 1, Value.int 2]) := by
  exact (claim_C1_thm 9 (Value.dict [("a", Value.int 1), ("b", Value.int 2)])
    [[PathKey.str "a"], [PathKey.str "b"]] (Value.str "DEFAULT")
    [Value.int 1, Value.int 2] (by simp) (by rfl)).trans rfl

/-- The work-list loop in get_all mode records only non-null values: the
end-of-path step discards a null-carrying frame instead of appending it. -/
theorem goStack_no_null (p : Path) : ∀ (g : Nat) (stack : List Frame) (acc : List Value),
    (∀ x ∈ acc, x ≠ Value.null) → ∀ ms, goStack g p true stack acc = some (Sum.inl ms) →
    ∀ x ∈ ms, x ≠ Value.null := by
  intro g
  induction g with
  | zero =>
    intro stack acc hacc ms h
    exact absurd h (by simp [goStack])
  | succ f ih =>
    intro stack acc hacc ms h
    cases stack with
    | nil =>
      have hae : acc = ms := by simpa [goStack] using h
      exact hae ▸ hacc
    | cons fr rest =>
      obtain ⟨cur, idx, sub⟩ := fr
      simp only [goStack] at h
      repeat' split at h
      all_goals first
        | exact ih _ _ hacc _ h
        | simp_all
      rename_i hcur
      refine ih _ _ ?_ _ h
      intro x hx
      rcases List.mem_append.mp hx with hx | hx
      · exact hacc x hx
      · rw [List.mem_singleton] at hx
        subst hx
        exact hcur
/-- In non-get_all mode the work-list loop never touches the results
accumulator: it either drains leaving the accumulator unchanged, or
returns early with a non-null match. -/
theorem goStack_nonGetAll (p : Path) : ∀ (g : Nat) (stack : List Frame) (acc : List Value)
    (res : List Value ⊕ Value), goStack g p false stack acc = some res →
    res = Sum.inl acc ∨ ∃ v, res = Sum.inr v ∧ v ≠ Value.null := by
  intro g
  induction g with
  | zero =>
    intro stack acc res h
    exact absurd h (by simp [goStack])
  | succ f ih =>
    intro stack acc res h
    cases stack with
    | nil =>
      left
      have := h
      simp only [goStack, Option.some.injEq] at this
      exact this.symm
    | cons fr rest =>
      obtain ⟨cur, idx, sub⟩ := fr
      simp only [goStack] at h
      repeat' split at h
      all_goals first
        | exact ih _ _ _ h
        | simp_all
      all_goals {
        rename_i hcur
        right
        exact ⟨cur, h.symm, hcur⟩
      }

/-- In non-get_all mode the path loop can only produce null if the
caller's default itself is null. -/
theorem goPaths_nonGetAll_null (obj : Value) : ∀ (paths : List Path) (g : Nat) (d r : Value),
    goPaths g obj paths d false [] = some r → r = Value.null → d = Value.null := by
  intro paths
  induction paths with
  | nil =>
    intro g d r h hr
    cases g with
    | zero => exact absurd h (by simp [goPaths])
    | succ f =>
      simp only [goPaths, List.isEmpty_nil, if_true, Option.some.injEq] at h
      subst hr
      simpa using h
  | cons q ps ih =>
    intro g d r h hr
    cases g with
    | zero => exact absurd h (by simp [goPaths])
    | succ f =>
      simp only [goPaths] at h
      cases hgs : goStack f q false [(obj, 0, none)] [] with
      | none => rw [hgs] at h; cases h
      | some res =>
        rw [hgs] at h
        rcases goStack_nonGetAll q f _ _ _ hgs with hres | ⟨v, hres, hv⟩
        · subst hres
          simp only [List.isEmpty_nil] at h
          simp only [Bool.not_false, Bool.not_true, Bool.false_and, Bool.and_false] at h
          exact ih f d r (by simpa using h) hr
        · subst hres
          simp only [Option.some.injEq] at h
          subst h
          exact absurd hr hv

/-- C9: a path whose traversal completes on an explicit null is never
recorded as a match.  Part one: the matches recorded for a single path in
get_all mode never contain null.  Part two: in non-get_all mode a null
result can only be the caller's own null default, never a recorded match.
Part three: a path producing no match (in particular one resolving to
null) falls through to the remaining paths of the PathSet, exactly like a
missing path. -/
theorem claim_C9 :
    (∀ (fuel : Nat) (obj : Value) (p : Path) (ms : List Value),
       pathMatches fuel obj p = some ms → Value.null ∉ ms)
    ∧ (∀ (fuel : Nat) (obj : Value) (paths : List Path) (d r : Value),
       traverse fuel obj paths d false = some r → r = Value.null → d = Value.null)
    ∧ (∀ (fuel : Nat) (obj : Value) (p : Path) (ps : List Path) (d : Value),
       goStack fuel p false [(obj, 0, none)] [] = some (Sum.inl []) →
       goPaths (fuel + 1) obj (p :: ps) d false [] = goPaths fuel obj ps d false []) := by
  refine ⟨?_, ?_, ?_⟩
  · intro fuel obj p ms hpm hmem
    cases hgs : goStack fuel p true [(obj, 0, none)] [] with
    | none => simp [pathMatches, hgs] at hpm
    | some s =>
      cases s with
      | inr v => simp [pathMatches, hgs] at hpm
      | inl a =>
        have ha : a = ms := by simpa [pathMatches, hgs] using hpm
        subst ha
        exact goStack_no_null p fuel _ [] (by simp) a hgs Value.null hmem rfl
  · intro fuel obj paths d r h hr
    cases fuel with
    | zero => exact absurd h (by simp [traverse])
    | succ f =>
      cases obj
      case null =>
        simp only [traverse, Option.some.injEq] at h
        rw [h, hr]
      all_goals {
        simp only [traverse] at h
        exact goPaths_nonGetAll_null _ paths f d r h hr
      }
  · intro fuel obj p ps d h
    simp only [goPaths, h]
    simp

/-- C9 witness: on the mapping binding a to null, the path a records no
match (null is discarded), a null result in non-get_all mode is just the
null default, and the PathSet falls through past the null-resolving path. -/
theorem claim_C9_witness :
    Value.null ∉ ([] : List Value)
    ∧ Value.null = Value.null
    ∧ goPaths 6 (Value.dict [("a", Value.null)]) [[PathKey.str "a"], [PathKey.str "b"]]
        (Value.str "DEFAULT") false []
      = goPaths 5 (Value.dict [("a", Value.null)]) [[PathKey.str "b"]]
        (Value.str "DEFAULT") false [] := by
  refine ⟨claim_C9.1 5 (Value.dict [("a", Value.null)]) [PathKey.str "a"] [] (by rfl),
          claim_C9.2.1 6 (Value.dict [("a", Value.null)]) [[PathKey.str "a"]]
            Value.null Value.null (by rfl) rfl,
          claim_C9.2.2 5 (Value.dict [("a", Value.null)]) [PathKey.str "a"] [[PathKey.str "b"]]
            (Value.str "DEFAULT") (by rfl)⟩


end Bsky
